import Mathlib

/-!
Verification of the pathfinder LSP-bridge core against its specification.

The development shallowly embeds the four core components of the repository:
the Content-Length framed transport (`src/transport.rs`), the LSP bridge
request/shutdown machinery (`src/lsp_bridge.rs`), the document synchronizer
(`src/documents.rs`), and the definition normalizer with its retry policy
(`src/tools/definition.rs`).

JSON values are modelled by an inductive `Json` type mirroring serde_json's
`Value` (floating-point numbers are collapsed into the integer constructor;
they play no role in any verified property).  Byte streams and strings are
modelled as `List Nat` of ASCII / Unicode scalar values.
-/

set_option maxHeartbeats 1600000

namespace Pathfinder

/-- Model of a serde_json `Value`: null, booleans, (integer) numbers, strings,
arrays, and objects.  Object fields are kept as an association list; values
produced by serde hold each key once, in map order. -/
inductive Json where
  | null : Json
  | bool (b : Bool) : Json
  | num (i : Int) : Json
  | str (s : List Nat) : Json
  | arr (elems : List Json) : Json
  | obj (fields : List (List Nat × Json)) : Json

/-- Is the character an ASCII decimal digit? -/
def isDigit (c : Nat) : Bool := decide (48 ≤ c ∧ c ≤ 57)

/-- Modelled from the spec: serde_json's decimal rendering of a natural
number (most-significant digit first, a lone "0" for zero). -/
def natDecimal (n : Nat) : List Nat :=
  if n = 0 then [48] else (Nat.digits 10 n).reverse.map (fun d => d + 48)

/-- Modelled from the spec: serde_json's decimal rendering of an integer. -/
def intDecimal (i : Int) : List Nat :=
  if i < 0 then 45 :: natDecimal i.natAbs else natDecimal i.natAbs

/-- Modelled from the spec: JSON string escaping of one character
(quote and backslash are escaped with a backslash). -/
def escChar (c : Nat) : List Nat := if c = 34 ∨ c = 92 then [92, c] else [c]

/-- Escape every character of a string body. -/
def escStr : List Nat → List Nat
  | [] => []
  | c :: s => escChar c ++ escStr s

/-- Serialize a JSON string (including the surrounding quotes). -/
def serStr (s : List Nat) : List Nat := 34 :: (escStr s ++ [34])

mutual

/-- Modelled from the spec: serde_json's compact serialization of a
structured value to bytes (`serde_json::to_vec`), which the repository uses
as the framed body. -/
def ser : Json → List Nat
  | .null => [110, 117, 108, 108]
  | .bool true => [116, 114, 117, 101]
  | .bool false => [102, 97, 108, 115, 101]
  | .num i => intDecimal i
  | .str s => serStr s
  | .arr [] => [91, 93]
  | .arr (x :: xs) => 91 :: (ser x ++ serArrTail xs)
  | .obj [] => [123, 125]
  | .obj (p :: ps) => 123 :: (serPair p ++ serObjTail ps)

/-- Serialize one object field as `"key":value`. -/
def serPair : List Nat × Json → List Nat
  | (k, v) => serStr k ++ (58 :: ser v)

/-- Serialize the remaining array elements, each preceded by a comma,
closed with a bracket. -/
def serArrTail : List Json → List Nat
  | [] => [93]
  | x :: xs => 44 :: (ser x ++ serArrTail xs)

/-- Serialize the remaining object fields, each preceded by a comma,
closed with a brace. -/
def serObjTail : List (List Nat × Json) → List Nat
  | [] => [125]
  | p :: ps => 44 :: (serPair p ++ serObjTail ps)

end

/-- Numeric value of a big-endian list of ASCII digit characters. -/
def digitsVal (cs : List Nat) : Nat := cs.foldl (fun a c => a * 10 + (c - 48)) 0

/-- Modelled from the spec: parse a leading run of decimal digits,
returning its value and the unconsumed remainder. -/
def parseNatPart (bs : List Nat) : Option (Nat × List Nat) :=
  let ds := bs.takeWhile (fun c => isDigit c)
  if ds = [] then none else some (digitsVal ds, bs.dropWhile (fun c => isDigit c))

/-- Modelled from the spec: parse a JSON string body after the opening
quote, undoing the backslash escapes, up to the closing quote.  The fuel
argument only forces termination; any fuel exceeding the input length
suffices. -/
def parseStrBody : Nat → List Nat → Option (List Nat × List Nat)
  | 0, _ => none
  | fuel + 1, bytes =>
    match bytes with
    | [] => none
    | c :: rest =>
      if c = 34 then some ([], rest)
      else if c = 92 then
        match rest with
        | [] => none
        | d :: rest2 =>
          match parseStrBody fuel rest2 with
          | none => none
          | some (s, r) => some (d :: s, r)
      else
        match parseStrBody fuel rest with
        | none => none
        | some (s, r) => some (c :: s, r)

mutual

/-- Modelled from the spec: recursive-descent parser for one structured
value (`serde_json::from_slice` restricted to the compact form the system
itself writes).  The fuel argument only forces termination; any fuel
exceeding the input length suffices. -/
def parseVal : Nat → List Nat → Option (Json × List Nat)
  | 0, _ => none
  | fuel + 1, bytes =>
    match bytes with
    | [] => none
    | c :: rest =>
      if isDigit c then
        match parseNatPart (c :: rest) with
        | none => none
        | some (n, r) => some (.num (n : Int), r)
      else if c = 45 then
        match parseNatPart rest with
        | none => none
        | some (n, r) => some (.num (-(n : Int)), r)
      else if c = 34 then
        match parseStrBody fuel rest with
        | none => none
        | some (s, r) => some (.str s, r)
      else if c = 110 then
        match rest with
        | 117 :: 108 :: 108 :: rest2 => some (.null, rest2)
        | _ => none
      else if c = 116 then
        match rest with
        | 114 :: 117 :: 101 :: rest2 => some (.bool true, rest2)
        | _ => none
      else if c = 102 then
        match rest with
        | 97 :: 108 :: 115 :: 101 :: rest2 => some (.bool false, rest2)
        | _ => none
      else if c = 91 then
        match rest with
        | [] => none
        | d :: rest2 =>
          if d = 93 then some (.arr [], rest2)
          else
            match parseVal fuel rest with
            | none => none
            | some (v, r) =>
              match parseArrTail fuel r with
              | none => none
              | some (vs, r2) => some (.arr (v :: vs), r2)
      else if c = 123 then
        match rest with
        | [] => none
        | d :: rest2 =>
          if d = 125 then some (.obj [], rest2)
          else
            match parsePair fuel rest with
            | none => none
            | some (p, r) =>
              match parseObjTail fuel r with
              | none => none
              | some (ps, r2) => some (.obj (p :: ps), r2)
      else none

/-- Parse one `"key":value` object field. -/
def parsePair : Nat → List Nat → Option ((List Nat × Json) × List Nat)
  | 0, _ => none
  | fuel + 1, bytes =>
    match bytes with
    | [] => none
    | c :: rest =>
      if c = 34 then
        match parseStrBody fuel rest with
        | none => none
        | some (k, r) =>
          match r with
          | [] => none
          | d :: r2 =>
            if d = 58 then
              match parseVal fuel r2 with
              | none => none
              | some (v, r3) => some ((k, v), r3)
            else none
      else none

/-- Parse the remaining array elements after the first. -/
def parseArrTail : Nat → List Nat → Option (List Json × List Nat)
  | 0, _ => none
  | fuel + 1, bytes =>
    match bytes with
    | [] => none
    | c :: rest =>
      if c = 93 then some ([], rest)
      else if c = 44 then
        match parseVal fuel rest with
        | none => none
        | some (v, r) =>
          match parseArrTail fuel r with
          | none => none
          | some (vs, r2) => some (v :: vs, r2)
      else none

/-- Parse the remaining object fields after the first. -/
def parseObjTail : Nat → List Nat → Option (List (List Nat × Json) × List Nat)
  | 0, _ => none
  | fuel + 1, bytes =>
    match bytes with
    | [] => none
    | c :: rest =>
      if c = 125 then some ([], rest)
      else if c = 44 then
        match parsePair fuel rest with
        | none => none
        | some (p, r) =>
          match parseObjTail fuel r with
          | none => none
          | some (ps, r2) => some (p :: ps, r2)
      else none

end

/-- Modelled from the spec: parse an entire byte body as one structured
value, requiring the whole body to be consumed. -/
def jparse (bytes : List Nat) : Option Json :=
  match parseVal (bytes.length + 1) bytes with
  | some (v, []) => some v
  | _ => none

/-- Does the byte stream avoid starting with a digit?  (A serialized number
followed by such a stream parses back exactly.) -/
def noDigitHead : List Nat → Bool
  | [] => true
  | c :: _ => !(isDigit c)

/-- Separation condition under which a serialized value followed by a
remainder parses back exactly: only numbers constrain their remainder. -/
def restOkB : Json → List Nat → Bool
  | .num _, rest => noDigitHead rest
  | _, _ => true

/-- Characters that can start a serialized value. -/
def serStart (c : Nat) : Bool := isDigit c || decide (c ∈ [110, 116, 102, 34, 45, 91, 123])

/-! ### Framed transport (src/transport.rs)

The transport is modelled over a byte stream given as a `List Nat`.  `read`
consumes a prefix of the stream; end of the list is end-of-stream. -/

/-- ASCII whitespace, as trimmed by Rust's `str::trim` (the repository only
ever trims ASCII header text). -/
def isWs (c : Nat) : Bool := decide (c = 32 ∨ c = 9 ∨ c = 10 ∨ c = 13)

/-- Rust `str::trim` on a header fragment. -/
def trimStr (l : List Nat) : List Nat :=
  ((l.dropWhile (fun c => isWs c)).reverse.dropWhile (fun c => isWs c)).reverse

/-- Is the character a carriage return or line feed? -/
def isCrLf (c : Nat) : Bool := decide (c = 13 ∨ c = 10)

/-- Rust `str::trim_end_matches(['\r', '\n'])` on a header line. -/
def trimEndCrLf (l : List Nat) : List Nat :=
  (l.reverse.dropWhile (fun c => isCrLf c)).reverse

/-- ASCII lowercasing of one character (`char::to_ascii_lowercase`). -/
def toLowerChar (c : Nat) : Nat := if 65 ≤ c ∧ c ≤ 90 then c + 32 else c

/-- ASCII lowercasing of a header name (`str::to_ascii_lowercase`). -/
def toLowerStr (l : List Nat) : List Nat := l.map toLowerChar

/-- Rust `str::split_once(':')` generalized to any separator: split at the
first occurrence, or `none` if the separator does not occur. -/
def splitOnce (sep : Nat) : List Nat → Option (List Nat × List Nat)
  | [] => none
  | c :: rest =>
    if c = sep then some ([], rest)
    else
      match splitOnce sep rest with
      | none => none
      | some (a, b) => some (c :: a, b)

/-- tokio's `read_line`: consume bytes up to and including the first line
feed (or all bytes, at end-of-stream), returning the line and the rest.
The line is empty exactly when the stream is at end-of-stream. -/
def readLine : List Nat → List Nat × List Nat
  | [] => ([], [])
  | c :: rest =>
    if c = 10 then ([10], rest)
    else
      let p := readLine rest
      (c :: p.1, p.2)

/-- Insert into the header map (`HashMap::insert`: a later insert for the
same name wins, which the first-match lookup below realizes). -/
def headersInsert (hs : List (List Nat × List Nat)) (name value : List Nat) :
    List (List Nat × List Nat) :=
  (name, value) :: hs

/-- Header map lookup (`HashMap::get`). -/
def headersGet : List (List Nat × List Nat) → List Nat → Option (List Nat)
  | [], _ => none
  | (n, v) :: rest, name => if n = name then some v else headersGet rest name

/-- Errors of the transport layer, one per distinct failure message in
`src/transport.rs`. -/
inductive TransportErr where
  | unexpectedEofHeaders
  | missingContentLength
  | badContentLength
  | shortBody
  | invalidJson

/-- `FramedTransport::read_headers`: consume header lines until a blank
line; end-of-stream with no parsed header is the "no message" outcome
(`Ok(None)`); end-of-stream after at least one parsed header is a fatal
framing error; a line with no colon is discarded; blank lines before the
first header are skipped.  The fuel argument only forces termination; any
fuel exceeding the input length suffices. -/
def read_headers : Nat → List (List Nat × List Nat) → List Nat →
    Except TransportErr (Option (List (List Nat × List Nat) × List Nat))
  | 0, _, _ => .error .unexpectedEofHeaders
  | fuel + 1, headers, bytes =>
    let line := (readLine bytes).1
    let rest := (readLine bytes).2
    if line = [] then
      if headers.isEmpty then .ok none else .error .unexpectedEofHeaders
    else
      let trimmed := trimEndCrLf line
      if trimmed.isEmpty then
        if headers.isEmpty then read_headers fuel headers rest
        else .ok (some (headers, rest))
      else
        match splitOnce 58 trimmed with
        | some nv =>
          read_headers fuel (headersInsert headers (toLowerStr (trimStr nv.1)) (trimStr nv.2)) rest
        | none => read_headers fuel headers rest

/-- The lowercased mandatory header name, "content-length". -/
def contentLengthKey : List Nat :=
  [99, 111, 110, 116, 101, 110, 116, 45, 108, 101, 110, 103, 116, 104]

/-- Modelled from the spec: Rust `str::parse::<usize>` on the trimmed
header value (digits only). -/
def parseUsize (s : List Nat) : Option Nat :=
  if s ≠ [] ∧ s.all (fun c => isDigit c) = true then some (digitsVal s) else none

/-- `FramedTransport::read`: read a header block, require and parse the
content-length header, read exactly that many body bytes (end-of-stream
sooner is fatal), and parse the body as one structured value. -/
def read (bytes : List Nat) : Except TransportErr (Option Json) :=
  match read_headers (bytes.length + 1) [] bytes with
  | .error e => .error e
  | .ok none => .ok none
  | .ok (some (headers, rest)) =>
    match headersGet headers contentLengthKey with
    | none => .error .missingContentLength
    | some v =>
      match parseUsize v with
      | none => .error .badContentLength
      | some n =>
        if n ≤ rest.length then
          match jparse (rest.take n) with
          | none => .error .invalidJson
          | some j => .ok (some j)
        else .error .shortBody

/-- The bytes of `"Content-Length: "`, as written by `FramedTransport::write`. -/
def clHeaderPrefix : List Nat :=
  [67, 111, 110, 116, 101, 110, 116, 45, 76, 101, 110, 103, 116, 104, 58, 32]

/-- `FramedTransport::write`: serialize the body, emit
`Content-Length: {len}\r\n\r\n` followed by the body bytes. -/
def write (v : Json) : List Nat :=
  clHeaderPrefix ++ natDecimal (ser v).length ++ [13, 10, 13, 10] ++ ser v

/-! ### LSP bridge (src/lsp_bridge.rs) -/

/-- Association-list lookup for modelled JSON object fields
(`serde_json::Map::get`; keys in a serde map are unique). -/
def lookupField : List (List Nat × Json) → List Nat → Option Json
  | [], _ => none
  | (k, v) :: rest, key => if k = key then some v else lookupField rest key

/-- The bytes of the field name "id". -/
def idKey : List Nat := [105, 100]

/-- The bytes of the field name "result". -/
def resultKey : List Nat := [114, 101, 115, 117, 108, 116]

/-- The bytes of the field name "error". -/
def errorKey : List Nat := [101, 114, 114, 111, 114]

/-- serde_json `Value::as_i64`: an integer number within i64 range. -/
def asI64 : Json → Option Int
  | .num i => if -(2 ^ 63) ≤ i ∧ i < 2 ^ 63 then some i else none
  | _ => none

/-- serde_json `Value::as_str`. -/
def asStr : Json → Option (List Nat)
  | .str s => some s
  | _ => none

/-- `i64::to_string`, reusing the decimal rendering. -/
def intToString (i : Int) : List Nat := intDecimal i

/-- `matches_id` from src/lsp_bridge.rs: the candidate id matches when it
is the same integer, or the decimal-string form of it. -/
def matches_id (candidate : Json) (id : Int) : Bool :=
  decide (asI64 candidate = some id) || decide (asStr candidate = some (intToString id))

/-- The fixed request timeout, in milliseconds. -/
def REQUEST_TIMEOUT_MS : Nat := 15000

/-- One outcome of `transport.read()` during the response wait: a decoded
frame, end-of-stream (`Ok(None)`), or a transport error propagated by `?`. -/
inductive ReadEvent where
  | frame (j : Json)
  | eof
  | fail (e : TransportErr)

/-- The result of `LspBridge::request`, one constructor per exit of the
read loop; the error constructors that name the method in their message
carry it. -/
inductive ReqResult where
  | ok (result : Json)
  | remoteErr (method : List Nat) (payload : Json)
  | invalidResponse (method : List Nat)
  | timeoutErr (method : List Nat)
  | terminated (method : List Nat)
  | readFailed (e : TransportErr)

/-- `LspBridge::request`'s response-read loop over a timed event trace.
Each entry `(d, e)` is the next `transport.read()` outcome, delivered `d`
milliseconds after that read begins; after the trace is exhausted the
server stays silent forever.  `timeout(REQUEST_TIMEOUT, transport.read())`
is re-armed on every loop iteration, so an entry with `d ≥ 15000` (or the
trailing silence) trips the timeout.  Returns the total time elapsed since
the call's start, paired with the loop's result. -/
def requestLoop (method : List Nat) (id : Int) :
    List (Nat × ReadEvent) → Nat → Nat × ReqResult
  | [], t => (t + REQUEST_TIMEOUT_MS, .timeoutErr method)
  | (d, ev) :: rest, t =>
    if REQUEST_TIMEOUT_MS ≤ d then (t + REQUEST_TIMEOUT_MS, .timeoutErr method)
    else
      match ev with
      | .eof => (t + d, .terminated method)
      | .fail e => (t + d, .readFailed e)
      | .frame j =>
        match j with
        | .obj fields =>
          match lookupField fields idKey with
          | some responseId =>
            if matches_id responseId id then
              match lookupField fields resultKey with
              | some result => (t + d, .ok result)
              | none =>
                match lookupField fields errorKey with
                | some err => (t + d, .remoteErr method err)
                | none => (t + d, .invalidResponse method)
            else requestLoop method id rest (t + d)
          | none => requestLoop method id rest (t + d)
        | _ => requestLoop method id rest (t + d)

/-- The bridge state relevant to id allocation. -/
structure BridgeState where
  next_request_id : Int
  deriving DecidableEq, Repr

/-- `LspBridge::new_with_command` starts the id counter at 1. -/
def newBridgeState : BridgeState := ⟨1⟩

/-- `LspBridge::request`: allocate the next id and advance the counter,
then run the read loop.  The counter advances whatever the outcome. -/
def request (st : BridgeState) (method : List Nat)
    (events : List (Nat × ReadEvent)) : (Int × Nat × ReqResult) × BridgeState :=
  ((st.next_request_id, requestLoop method st.next_request_id events 0),
    ⟨st.next_request_id + 1⟩)

/-- The ids issued by a sequence of requests, each with its own reply
trace (a trace may make its request fail in any way). -/
def issuedIds (st : BridgeState) : List (List (Nat × ReadEvent)) → List Int
  | [] => []
  | evs :: rest => (request st [] evs).1.1 :: issuedIds (request st [] evs).2 rest

/-- Does the read loop discard this event and keep waiting?  True for
frames that are not objects, carry no id, or carry a non-matching id. -/
def discardedB (id : Int) : ReadEvent → Bool
  | .frame (.obj fields) =>
    match lookupField fields idKey with
    | some responseId => ! matches_id responseId id
    | none => true
  | .frame _ => true
  | _ => false

/-- Sum of the inter-frame delays of a trace. -/
def delaysSum (events : List (Nat × ReadEvent)) : Nat :=
  (events.map Prod.fst).sum

/-- Outcome of `timeout(REQUEST_TIMEOUT, child.wait())` in `shutdown`. -/
inductive WaitOutcome where
  | exited
  | waitErr
  | timedOut
  deriving DecidableEq, Repr

/-- Environment of one `LspBridge::shutdown` run: the outcome of the
`shutdown` request, of the `exit` notification, and of the exit wait. -/
structure ShutdownEnv where
  shutdownReply : ReqResult
  exitNotifyOk : Bool
  wait : WaitOutcome

/-- Observable steps of the shutdown state machine. -/
inductive ShutdownStep where
  | sentShutdownRequest
  | sentExitNotification
  | observedExit
  | killed
  deriving DecidableEq, Repr

/-- Did the `shutdown` request fail (any non-Ok loop exit)? -/
def reqFailed : ReqResult → Bool
  | .ok _ => false
  | _ => true

/-- `LspBridge::shutdown`: (1) send the `shutdown` request — on failure,
kill immediately and return; (2) send the `exit` notification, tolerating
failure; (3) wait for process exit with the fixed timeout; (4) on wait
error or timeout, kill.  (`Child::kill` is modelled as delivering
SIGKILL; the exit notification is attempted on every success path of
step 1 regardless of its own outcome.) -/
def shutdown (env : ShutdownEnv) : List ShutdownStep :=
  if reqFailed env.shutdownReply then [.sentShutdownRequest, .killed]
  else
    [.sentShutdownRequest, .sentExitNotification] ++
      match env.wait with
      | .exited => [.observedExit]
      | .waitErr => [.killed]
      | .timedOut => [.killed]

/-! ### Document synchronizer (src/documents.rs) -/

/-- Per-document state: announced version and last-synchronized mtime
(modelled as a monotone counter of nanoseconds). -/
structure DocumentState where
  version : Int
  mtime : Nat
  deriving DecidableEq, Repr

/-- `is_newer`: `a.duration_since(b)` errors when `a < b` (mapped to
`false` by `unwrap_or`); otherwise `a` is newer when the duration has
strictly positive nanoseconds, i.e. exactly when `b < a`. -/
def is_newer (a b : Nat) : Bool := decide (b < a)

/-- The announcements `ensure_open` can send. -/
inductive Announcement where
  | didOpen (uri languageId : List Nat) (version : Int) (text : List Nat)
  | didChange (uri : List Nat) (version : Int) (text : List Nat)
  deriving DecidableEq, Repr

/-- Lookup in the uri → DocumentState map (`HashMap::get`). -/
def docLookup : List (List Nat × DocumentState) → List Nat → Option DocumentState
  | [], _ => none
  | (k, v) :: rest, key => if k = key then some v else docLookup rest key

/-- Insert into the uri → DocumentState map (`HashMap::insert`: a later
insert wins under the first-match lookup above). -/
def docInsert (m : List (List Nat × DocumentState)) (uri : List Nat)
    (st : DocumentState) : List (List Nat × DocumentState) :=
  (uri, st) :: m

/-- `DocumentManager::ensure_open` with the filesystem outcome supplied:
`modified` is the file's current mtime and `text` its current content
(`language_id_for_path`'s result is passed in as `languageId`).  Returns
the announcements sent and the updated map. -/
def ensure_open (opened : List (List Nat × DocumentState)) (uri : List Nat)
    (languageId : List Nat) (modified : Nat) (text : List Nat) :
    List Announcement × List (List Nat × DocumentState) :=
  match docLookup opened uri with
  | some st =>
    if is_newer modified st.mtime = false then ([], opened)
    else
      ([.didChange uri (st.version + 1) text],
        docInsert opened uri ⟨st.version + 1, modified⟩)
  | none =>
    ([.didOpen uri languageId 1 text], docInsert opened uri ⟨1, modified⟩)

/-! ### Definition normalizer (src/tools/definition.rs) -/

/-- Maximum number of attempts of the retry loop. -/
def MAX_RETRIES : Nat := 3

/-- Fixed delay between attempts, in milliseconds. -/
def RETRY_DELAY_MS : Nat := 150

/-- A normalized definition target position (u32 coordinates). -/
structure TextRange where
  start_line : Nat
  start_character : Nat
  end_line : Nat
  end_character : Nat
  deriving DecidableEq, Repr

/-- A normalized definition target. -/
structure DefinitionTarget where
  uri : List Nat
  range : TextRange
  deriving DecidableEq, Repr

/-- Errors of the normalizer, one per distinct failure message. -/
inductive DefErr where
  | unexpectedFormat
  | entryNotObject
  | missingUriFields
  | uriNotString
  | rangeMissing
  | targetUriNotString
  | targetRangeMissing
  | rangeNotObject
  | startMissing
  | endMissing
  | coordNotUint (positionLabel coord : List Nat)
  | requestFailed
  deriving DecidableEq, Repr

/-- The bytes of the field name "uri". -/
def uriKey : List Nat := [117, 114, 105]

/-- The bytes of the field name "range". -/
def rangeKey : List Nat := [114, 97, 110, 103, 101]

/-- The bytes of the field name "targetUri". -/
def targetUriKey : List Nat := [116, 97, 114, 103, 101, 116, 85, 114, 105]

/-- The bytes of the field name "targetRange". -/
def targetRangeKey : List Nat := [116, 97, 114, 103, 101, 116, 82, 97, 110, 103, 101]

/-- The bytes of the field name "start". -/
def startKey : List Nat := [115, 116, 97, 114, 116]

/-- The bytes of the field name "end". -/
def endKey : List Nat := [101, 110, 100]

/-- The bytes of the field name "line". -/
def lineKey : List Nat := [108, 105, 110, 101]

/-- The bytes of the field name "character". -/
def characterKey : List Nat := [99, 104, 97, 114, 97, 99, 116, 101, 114]

/-- serde `Number::as_u64` on the model: a non-negative integer (within
u64 range). -/
def asU64 : Json → Option Nat
  | .num i => if 0 ≤ i ∧ i < 2 ^ 64 then some i.toNat else none
  | _ => none

/-- `get_coord`: read a coordinate field of a position object through
`as_u64`, then truncate with `as u32` (value modulo 2^32); any missing or
non-unsigned-integer field is the fatal coordinate error. -/
def get_coord (value : Json) (coord : List Nat) (positionLabel : List Nat) :
    Except DefErr Nat :=
  match value with
  | .obj fields =>
    match lookupField fields coord with
    | some numv =>
      match asU64 numv with
      | some v => .ok (v % 2 ^ 32)
      | none => .error (.coordNotUint positionLabel coord)
    | none => .error (.coordNotUint positionLabel coord)
  | _ => .error (.coordNotUint positionLabel coord)

/-- `parse_range`: require `start` and `end` sub-objects and their four
coordinates. -/
def parse_range (value : Json) : Except DefErr TextRange :=
  match value with
  | .obj fields =>
    match lookupField fields startKey with
    | none => .error .startMissing
    | some startv =>
      match lookupField fields endKey with
      | none => .error .endMissing
      | some endv => do
        let sl ← get_coord startv lineKey startKey
        let sc ← get_coord startv characterKey startKey
        let el ← get_coord endv lineKey endKey
        let ec ← get_coord endv characterKey endKey
        .ok ⟨sl, sc, el, ec⟩
  | _ => .error .rangeNotObject

/-- Does the object contain the key (`Map::contains_key`)? -/
def containsKey (fields : List (List Nat × Json)) (key : List Nat) : Bool :=
  (lookupField fields key).isSome

/-- `convert_standard_location`: `{uri, range}`. -/
def convert_standard_location (fields : List (List Nat × Json)) :
    Except DefErr DefinitionTarget :=
  match lookupField fields uriKey with
  | some u =>
    match asStr u with
    | some s =>
      match lookupField fields rangeKey with
      | none => .error .rangeMissing
      | some rv => (parse_range rv).map (fun r => ⟨s, r⟩)
    | none => .error .uriNotString
  | none => .error .uriNotString

/-- `convert_location_link`: `{targetUri, targetRange}`. -/
def convert_location_link (fields : List (List Nat × Json)) :
    Except DefErr DefinitionTarget :=
  match lookupField fields targetUriKey with
  | some u =>
    match asStr u with
    | some s =>
      match lookupField fields targetRangeKey with
      | none => .error .targetRangeMissing
      | some rv => (parse_range rv).map (fun r => ⟨s, r⟩)
    | none => .error .targetUriNotString
  | none => .error .targetUriNotString

/-- `convert_location`: try the Location shape, then the LocationLink
shape; an object with neither key is a fatal error, as is a non-object. -/
def convert_location (value : Json) : Except DefErr DefinitionTarget :=
  match value with
  | .obj fields =>
    if containsKey fields uriKey then convert_standard_location fields
    else if containsKey fields targetUriKey then convert_location_link fields
    else .error .missingUriFields
  | _ => .error .entryNotObject

/-- `normalize_targets`: null → empty list; a list → element-wise (first
error wins); a single object → one-element list; anything else → the
fatal "unexpected format" error. -/
def normalize_targets (value : Json) : Except DefErr (List DefinitionTarget) :=
  match value with
  | .null => .ok []
  | .arr entries => entries.mapM convert_location
  | .obj fields => (convert_location (.obj fields)).map (fun t => [t])
  | _ => .error .unexpectedFormat

/-- Observable steps of `DefinitionTool::execute`. -/
inductive ToolStep where
  | sentRequest (attempt : Nat)
  | slept (ms : Nat)
  deriving DecidableEq, Repr

/-- One pass of `DefinitionTool::execute`'s `for attempt in 1..=MAX_RETRIES`
loop, with `remaining` attempts left (so `attempt < MAX_RETRIES` holds
exactly when `remaining > 1` at the start of a pass, matching the sleep
condition); `replies attempt` is the bridge's outcome for that attempt.
When the loop ends with every attempt empty, the result is an empty
success, never an error. -/
def executeAttempts (replies : Nat → Except DefErr Json) (attempt : Nat) :
    Nat → List ToolStep × Except DefErr (List DefinitionTarget)
  | 0 => ([], .ok [])
  | remaining + 1 =>
    match replies attempt with
    | .error e => ([.sentRequest attempt], .error e)
    | .ok raw =>
      match normalize_targets raw with
      | .error e => ([.sentRequest attempt], .error e)
      | .ok targets =>
        if targets.isEmpty then
          if remaining = 0 then ([.sentRequest attempt], .ok [])
          else
            (.sentRequest attempt :: .slept RETRY_DELAY_MS ::
                (executeAttempts replies (attempt + 1) remaining).1,
              (executeAttempts replies (attempt + 1) remaining).2)
        else ([.sentRequest attempt], .ok targets)

/-- `DefinitionTool::execute`: run at most `MAX_RETRIES` attempts starting
from attempt 1. -/
def execute (replies : Nat → Except DefErr Json) :
    List ToolStep × Except DefErr (List DefinitionTarget) :=
  executeAttempts replies 1 MAX_RETRIES

/-- Number of requests sent in a step trace. -/
def sentCount (steps : List ToolStep) : Nat :=
  (steps.filter (fun s =>
    match s with
    | .sentRequest _ => true
    | _ => false)).length

/-! ### Concrete fixtures used by several properties -/

/-- The bytes of "file:///a.rs". -/
def sampleUri : List Nat := [102, 105, 108, 101, 58, 47, 47, 47, 97, 46, 114, 115]

/-- The range `{start: {line: 1, character: 0}, end: {line: 1, character: 3}}`. -/
def sampleRange : Json :=
  .obj [(startKey, .obj [(lineKey, .num 1), (characterKey, .num 0)]),
        (endKey, .obj [(lineKey, .num 1), (characterKey, .num 3)])]

/-- The Location-shaped reply `{uri: "file:///a.rs", range: sampleRange}`. -/
def sampleLoc : Json := .obj [(uriKey, .str sampleUri), (rangeKey, sampleRange)]

/-- The LocationLink-shaped reply with the same target. -/
def sampleLink : Json := .obj [(targetUriKey, .str sampleUri), (targetRangeKey, sampleRange)]

/-- The one normalized target all three reply shapes produce. -/
def sampleTarget : DefinitionTarget := ⟨sampleUri, ⟨1, 0, 1, 3⟩⟩

/-- A range whose line coordinates exceed `u32::MAX` (value `2^32 + 5`). -/
def bigRange : Json :=
  .obj [(startKey, .obj [(lineKey, .num ((2 ^ 32 + 5 : Nat) : Int)), (characterKey, .num 0)]),
        (endKey, .obj [(lineKey, .num ((2 ^ 32 + 5 : Nat) : Int)), (characterKey, .num 3)])]

/-! ### Theorems -/

theorem natDecimal_ne_nil (n : Nat) : natDecimal n ≠ [] := by
  unfold natDecimal
  split
  · simp
  · next h =>
    simp only [ne_eq, List.map_eq_nil_iff, List.reverse_eq_nil_iff]
    exact Nat.digits_ne_nil_iff_ne_zero.mpr h

theorem natDecimal_digits (n : Nat) : ∀ c ∈ natDecimal n, isDigit c = true := by
  intro c hc
  unfold natDecimal at hc
  split at hc
  · simp at hc
    simp [hc, isDigit]
  · simp only [List.mem_map, List.mem_reverse] at hc
    obtain ⟨d, hd, rfl⟩ := hc
    have : d < 10 := Nat.digits_lt_base (by norm_num) hd
    simp [isDigit]
    omega

theorem foldl_mul_add (L : List Nat) :
    ∀ a : Nat, L.foldl (fun x d => x * 10 + d) a = a * 10 ^ L.length + Nat.ofDigits 10 L.reverse := by
  induction L with
  | nil => intro a; simp [Nat.ofDigits_nil]
  | cons d L ih =>
    intro a
    simp only [List.foldl_cons, ih, List.reverse_cons, Nat.ofDigits_append,
      List.length_cons, List.length_reverse, Nat.ofDigits_cons, Nat.ofDigits_nil]
    ring

theorem digitsVal_natDecimal (n : Nat) : digitsVal (natDecimal n) = n := by
  unfold natDecimal digitsVal
  split
  · next h => simp [h]
  · next h =>
    have hmap : ((Nat.digits 10 n).reverse.map (fun d => d + 48)).foldl
        (fun a c => a * 10 + (c - 48)) 0 =
        (Nat.digits 10 n).reverse.foldl (fun a d => a * 10 + d) 0 := by
      rw [List.foldl_map]
      simp only [Nat.add_sub_cancel]
    rw [hmap, foldl_mul_add]
    simp [Nat.ofDigits_digits]

theorem takeWhile_append_all {p : Nat → Bool} :
    ∀ (l r : List Nat), (∀ c ∈ l, p c = true) → (∀ c, r.head? = some c → p c = false) →
      (l ++ r).takeWhile p = l := by
  intro l r
  induction l with
  | nil =>
    intro _ hr
    cases r with
    | nil => rfl
    | cons c r' => simp [List.takeWhile, hr c rfl]
  | cons c l' ih =>
    intro hl hr
    have hc : p c = true := hl c (by simp)
    simp only [List.cons_append, List.takeWhile_cons, hc, cond_true]
    rw [ih (fun x hx => hl x (by simp [hx])) hr]
    simp

theorem dropWhile_append_all {p : Nat → Bool} :
    ∀ (l r : List Nat), (∀ c ∈ l, p c = true) → (∀ c, r.head? = some c → p c = false) →
      (l ++ r).dropWhile p = r := by
  intro l r
  induction l with
  | nil =>
    intro _ hr
    cases r with
    | nil => rfl
    | cons c r' => simp [List.dropWhile, hr c rfl]
  | cons c l' ih =>
    intro hl hr
    have hc : p c = true := hl c (by simp)
    simp only [List.cons_append, List.dropWhile_cons, hc, cond_true]
    simpa using ih (fun x hx => hl x (by simp [hx])) hr

theorem parseNatPart_natDecimal (n : Nat) (rest : List Nat) (h : noDigitHead rest = true) :
    parseNatPart (natDecimal n ++ rest) = some (n, rest) := by
  have hr : ∀ c, rest.head? = some c → isDigit c = false := by
    intro c hc
    cases rest with
    | nil => simp at hc
    | cons d r =>
      simp at hc
      subst hc
      simpa [noDigitHead] using h
  unfold parseNatPart
  rw [takeWhile_append_all _ _ (natDecimal_digits n) hr,
    dropWhile_append_all _ _ (natDecimal_digits n) hr]
  simp [natDecimal_ne_nil n, digitsVal_natDecimal]

theorem parseStrBody_esc2 (fuel d : Nat) (r : List Nat) :
    parseStrBody (fuel + 1) (92 :: d :: r) =
      match parseStrBody fuel r with
      | none => none
      | some (s, r2) => some (d :: s, r2) := rfl

theorem parseStrBody_close (fuel : Nat) (r : List Nat) :
    parseStrBody (fuel + 1) (34 :: r) = some ([], r) := rfl

theorem parseStrBody_other {c : Nat} (h34 : c ≠ 34) (h92 : c ≠ 92) (fuel : Nat)
    (r : List Nat) :
    parseStrBody (fuel + 1) (c :: r) =
      match parseStrBody fuel r with
      | none => none
      | some (s, r2) => some (c :: s, r2) := by
  simp only [parseStrBody]
  rw [if_neg h34, if_neg h92]

theorem parseStrBody_escStr (s : List Nat) :
    ∀ (rest : List Nat) (fuel : Nat), (escStr s).length < fuel →
      parseStrBody fuel (escStr s ++ 34 :: rest) = some (s, rest) := by
  induction s with
  | nil =>
    intro rest fuel h
    cases fuel with
    | zero => simp [escStr] at h
    | succ f => rfl
  | cons c s ih =>
    intro rest fuel h
    by_cases hc : c = 34 ∨ c = 92
    · cases fuel with
      | zero => simp at h
      | succ f =>
        simp only [escStr, escChar, if_pos hc, List.cons_append, List.append_assoc,
          List.nil_append]
        rw [parseStrBody_esc2]
        rw [ih rest f (by simp only [escStr, escChar, if_pos hc] at h; simp at h; omega)]
    · have h1 : c ≠ 34 := fun hx => hc (Or.inl hx)
      have h2 : c ≠ 92 := fun hx => hc (Or.inr hx)
      cases fuel with
      | zero => simp at h
      | succ f =>
        simp only [escStr, escChar, if_neg hc, List.cons_append, List.append_assoc,
          List.nil_append]
        rw [parseStrBody_other h1 h2]
        rw [ih rest f (by simp only [escStr, escChar, if_neg hc] at h; simp at h; omega)]

theorem ser_start (v : Json) : ∃ c cs, ser v = c :: cs ∧ serStart c = true := by
  cases v with
  | null => exact ⟨110, [117, 108, 108], by simp [ser], by decide⟩
  | bool b => cases b with
    | true => exact ⟨116, [114, 117, 101], by simp [ser], by decide⟩
    | false => exact ⟨102, [97, 108, 115, 101], by simp [ser], by decide⟩
  | num i =>
    by_cases hi : i < 0
    · exact ⟨45, natDecimal i.natAbs, by simp [ser, intDecimal, if_pos hi], by decide⟩
    · cases hnd : natDecimal i.natAbs with
      | nil => exact absurd hnd (natDecimal_ne_nil _)
      | cons c cs =>
        refine ⟨c, cs, by simp [ser, intDecimal, if_neg hi, hnd], ?_⟩
        have hd : isDigit c = true := natDecimal_digits _ c (by rw [hnd]; simp)
        simp [serStart, hd]
  | str s => exact ⟨34, escStr s ++ [34], by simp [ser, serStr], by decide⟩
  | arr xs => cases xs with
    | nil => exact ⟨91, [93], by simp [ser], by decide⟩
    | cons x xs' => exact ⟨91, ser x ++ serArrTail xs', by simp [ser], by decide⟩
  | obj ps => cases ps with
    | nil => exact ⟨123, [125], by simp [ser], by decide⟩
    | cons p ps' => exact ⟨123, serPair p ++ serObjTail ps', by simp [ser], by decide⟩

theorem serStart_ne {c : Nat} (h : serStart c = true) : c ≠ 93 ∧ c ≠ 44 ∧ c ≠ 125 := by
  simp only [serStart, isDigit, Bool.or_eq_true, decide_eq_true_eq, List.mem_cons] at h
  rcases h with h | h
  · omega
  · simp at h
    omega

theorem noDigitHead_serArrTail (xs : List Json) (rest : List Nat) :
    noDigitHead (serArrTail xs ++ rest) = true := by
  cases xs <;> simp [serArrTail, noDigitHead, isDigit]

theorem noDigitHead_serObjTail (ps : List (List Nat × Json)) (rest : List Nat) :
    noDigitHead (serObjTail ps ++ rest) = true := by
  cases ps <;> simp [serObjTail, noDigitHead, isDigit]

theorem restOkB_of_noDigitHead (v : Json) (rest : List Nat) (h : noDigitHead rest = true) :
    restOkB v rest = true := by
  cases v <;> simp [restOkB, h]

theorem serStr_length (s : List Nat) : (serStr s).length = (escStr s).length + 2 := by
  simp [serStr]

theorem ser_length_pos (v : Json) : 0 < (ser v).length := by
  cases v with
  | null => simp [ser]
  | bool b => cases b <;> simp [ser]
  | num i =>
    by_cases hi : i < 0
    · simp [ser, intDecimal, if_pos hi]
    · simp only [ser, intDecimal, if_neg hi]
      cases hnd : natDecimal i.natAbs with
      | nil => exact absurd hnd (natDecimal_ne_nil _)
      | cons c cs => simp [hnd]
  | str s => simp [ser, serStr]
  | arr xs => cases xs <;> simp [ser]
  | obj ps => cases ps <;> simp [ser]

theorem serPair_length_ge (p : List Nat × Json) : 4 ≤ (serPair p).length := by
  obtain ⟨k, v⟩ := p
  have h1 := ser_length_pos v
  simp [serPair, serStr_length]
  omega

theorem serArrTail_length_pos (xs : List Json) : 0 < (serArrTail xs).length := by
  cases xs <;> simp [serArrTail]

theorem serObjTail_length_pos (ps : List (List Nat × Json)) : 0 < (serObjTail ps).length := by
  cases ps <;> simp [serObjTail]

theorem parseVal_str (fuel : Nat) (r : List Nat) :
    parseVal (fuel + 1) (34 :: r) =
      match parseStrBody fuel r with
      | none => none
      | some (s, r2) => some (.str s, r2) := rfl

theorem parseVal_null (fuel : Nat) (r : List Nat) :
    parseVal (fuel + 1) (110 :: 117 :: 108 :: 108 :: r) = some (.null, r) := rfl

theorem parseVal_true (fuel : Nat) (r : List Nat) :
    parseVal (fuel + 1) (116 :: 114 :: 117 :: 101 :: r) = some (.bool true, r) := rfl

theorem parseVal_false (fuel : Nat) (r : List Nat) :
    parseVal (fuel + 1) (102 :: 97 :: 108 :: 115 :: 101 :: r) = some (.bool false, r) := rfl

theorem parseVal_neg (fuel : Nat) (r : List Nat) :
    parseVal (fuel + 1) (45 :: r) =
      match parseNatPart r with
      | none => none
      | some (n, r2) => some (.num (-(n : Int)), r2) := rfl

theorem parseVal_digit {c : Nat} (h : isDigit c = true) (fuel : Nat) (r : List Nat) :
    parseVal (fuel + 1) (c :: r) =
      match parseNatPart (c :: r) with
      | none => none
      | some (n, r2) => some (.num (n : Int), r2) := by
  simp only [parseVal, h]
  rfl

theorem parseVal_arr (fuel : Nat) (r : List Nat) :
    parseVal (fuel + 1) (91 :: r) =
      match r with
      | [] => none
      | d :: rest2 =>
        if d = 93 then some (.arr [], rest2)
        else
          match parseVal fuel r with
          | none => none
          | some (v, r1) =>
            match parseArrTail fuel r1 with
            | none => none
            | some (vs, r2) => some (.arr (v :: vs), r2) := rfl

theorem parseVal_obj (fuel : Nat) (r : List Nat) :
    parseVal (fuel + 1) (123 :: r) =
      match r with
      | [] => none
      | d :: rest2 =>
        if d = 125 then some (.obj [], rest2)
        else
          match parsePair fuel r with
          | none => none
          | some (p, r1) =>
            match parseObjTail fuel r1 with
            | none => none
            | some (ps, r2) => some (.obj (p :: ps), r2) := rfl

theorem parsePair_str (fuel : Nat) (r : List Nat) :
    parsePair (fuel + 1) (34 :: r) =
      match parseStrBody fuel r with
      | none => none
      | some (k, r1) =>
        match r1 with
        | [] => none
        | d :: r2 =>
          if d = 58 then
            match parseVal fuel r2 with
            | none => none
            | some (v, r3) => some ((k, v), r3)
          else none := rfl

theorem parseArrTail_close (fuel : Nat) (r : List Nat) :
    parseArrTail (fuel + 1) (93 :: r) = some ([], r) := rfl

theorem parseArrTail_comma (fuel : Nat) (r : List Nat) :
    parseArrTail (fuel + 1) (44 :: r) =
      match parseVal fuel r with
      | none => none
      | some (v, r1) =>
        match parseArrTail fuel r1 with
        | none => none
        | some (vs, r2) => some (v :: vs, r2) := rfl

theorem parseObjTail_close (fuel : Nat) (r : List Nat) :
    parseObjTail (fuel + 1) (125 :: r) = some ([], r) := rfl

theorem parseObjTail_comma (fuel : Nat) (r : List Nat) :
    parseObjTail (fuel + 1) (44 :: r) =
      match parsePair fuel r with
      | none => none
      | some (p, r1) =>
        match parseObjTail fuel r1 with
        | none => none
        | some (ps, r2) => some (p :: ps, r2) := rfl

theorem parseVal_arr_cons {d : Nat} (hne : d ≠ 93) (fuel : Nat) (r2 : List Nat) :
    parseVal (fuel + 1) (91 :: d :: r2) =
      match parseVal fuel (d :: r2) with
      | none => none
      | some (v, r) =>
        match parseArrTail fuel r with
        | none => none
        | some (vs, r3) => some (.arr (v :: vs), r3) := by
  rw [parseVal_arr]
  dsimp only
  rw [if_neg hne]

theorem parseVal_obj_cons {d : Nat} (hne : d ≠ 125) (fuel : Nat) (r2 : List Nat) :
    parseVal (fuel + 1) (123 :: d :: r2) =
      match parsePair fuel (d :: r2) with
      | none => none
      | some (p, r) =>
        match parseObjTail fuel r with
        | none => none
        | some (ps, r3) => some (.obj (p :: ps), r3) := by
  rw [parseVal_obj]
  dsimp only
  rw [if_neg hne]

theorem parse_ser_all : ∀ fuel : Nat,
    (∀ v rest, (ser v ++ rest).length < fuel → restOkB v rest = true →
        parseVal fuel (ser v ++ rest) = some (v, rest)) ∧
    (∀ k v rest, (serPair (k, v) ++ rest).length ≤ fuel → restOkB v rest = true →
        parsePair fuel (serPair (k, v) ++ rest) = some ((k, v), rest)) ∧
    (∀ xs rest, (serArrTail xs ++ rest).length < fuel →
        parseArrTail fuel (serArrTail xs ++ rest) = some (xs, rest)) ∧
    (∀ ps rest, (serObjTail ps ++ rest).length < fuel →
        parseObjTail fuel (serObjTail ps ++ rest) = some (ps, rest)) := by
  intro fuel
  induction fuel with
  | zero =>
    refine ⟨fun v rest h _ => absurd h (Nat.not_lt_zero _),
            fun k v rest h _ => ?_,
            fun xs rest h => absurd h (Nat.not_lt_zero _),
            fun ps rest h => absurd h (Nat.not_lt_zero _)⟩
    exfalso
    have h4 := serPair_length_ge (k, v)
    simp only [List.length_append] at h
    omega
  | succ fuel ih =>
    obtain ⟨ihA, ihD, ihB, ihC⟩ := ih
    refine ⟨?_, ?_, ?_, ?_⟩
    · -- one serialized value parses back
      intro v rest hlen hrok
      cases v with
      | null =>
        simp only [ser, List.cons_append, List.nil_append]
        exact parseVal_null fuel rest
      | bool b =>
        cases b with
        | true =>
          simp only [ser, List.cons_append, List.nil_append]
          exact parseVal_true fuel rest
        | false =>
          simp only [ser, List.cons_append, List.nil_append]
          exact parseVal_false fuel rest
      | num i =>
        have hnum : noDigitHead rest = true := by simpa [restOkB] using hrok
        by_cases hi : i < 0
        · have h1 : ser (Json.num i) ++ rest = 45 :: (natDecimal i.natAbs ++ rest) := by
            simp [ser, intDecimal, if_pos hi]
          rw [h1, parseVal_neg, parseNatPart_natDecimal _ _ hnum]
          have h2 : -((i.natAbs : Nat) : Int) = i := by omega
          dsimp only
          rw [h2]
        · cases hnd : natDecimal i.natAbs with
          | nil => exact absurd hnd (natDecimal_ne_nil _)
          | cons c cs =>
            have hdig : isDigit c = true := natDecimal_digits _ c (by rw [hnd]; simp)
            have h1 : ser (Json.num i) ++ rest = c :: (cs ++ rest) := by
              simp [ser, intDecimal, if_neg hi, hnd]
            rw [h1, parseVal_digit hdig]
            have h2 : c :: (cs ++ rest) = natDecimal i.natAbs ++ rest := by
              rw [hnd]; simp
            rw [h2, parseNatPart_natDecimal _ _ hnum]
            have h3 : ((i.natAbs : Nat) : Int) = i := by omega
            dsimp only
            rw [h3]
      | str s =>
        have h1 : ser (Json.str s) ++ rest = 34 :: (escStr s ++ 34 :: rest) := by
          simp [ser, serStr]
        have hf : (escStr s).length < fuel := by
          have hL : (ser (Json.str s)).length = (escStr s).length + 2 := by
            simp [ser, serStr]
          simp only [List.length_append] at hlen
          omega
        rw [h1, parseVal_str, parseStrBody_escStr s rest fuel hf]
      | arr xs =>
        cases xs with
        | nil =>
          have h1 : ser (Json.arr []) ++ rest = 91 :: 93 :: rest := by simp [ser]
          rw [h1, parseVal_arr]
          simp
        | cons x xs' =>
          have h1 : ser (Json.arr (x :: xs')) ++ rest =
              91 :: (ser x ++ (serArrTail xs' ++ rest)) := by
            simp [ser]
          obtain ⟨c, cs, hser, hstart⟩ := ser_start x
          obtain ⟨hne93, hne44, hne125⟩ := serStart_ne hstart
          have h2 : ser x ++ (serArrTail xs' ++ rest) = c :: (cs ++ (serArrTail xs' ++ rest)) := by
            rw [hser]; simp
          have hlx : (ser x ++ (serArrTail xs' ++ rest)).length < fuel := by
            have hL : (ser (Json.arr (x :: xs'))).length =
                1 + (ser x).length + (serArrTail xs').length := by simp [ser]; omega
            simp only [List.length_append] at hlen ⊢
            have := serArrTail_length_pos xs'
            omega
          have hlb : (serArrTail xs' ++ rest).length < fuel := by
            have := ser_length_pos x
            simp only [List.length_append] at hlx ⊢
            omega
          rw [h1, h2, parseVal_arr_cons hne93, ← h2,
            ihA x _ hlx (restOkB_of_noDigitHead _ _ (noDigitHead_serArrTail _ _))]
          dsimp only
          rw [ihB xs' rest hlb]
      | obj ps =>
        cases ps with
        | nil =>
          have h1 : ser (Json.obj []) ++ rest = 123 :: 125 :: rest := by simp [ser]
          rw [h1, parseVal_obj]
          simp
        | cons p ps' =>
          obtain ⟨k, pv⟩ := p
          have h1 : ser (Json.obj ((k, pv) :: ps')) ++ rest =
              123 :: (serPair (k, pv) ++ (serObjTail ps' ++ rest)) := by
            simp [ser]
          have h2 : serPair (k, pv) ++ (serObjTail ps' ++ rest) =
              34 :: ((escStr k ++ [34] ++ (58 :: ser pv)) ++ (serObjTail ps' ++ rest)) := by
            simp [serPair, serStr]
          have hlp : (serPair (k, pv) ++ (serObjTail ps' ++ rest)).length ≤ fuel := by
            have hL : (ser (Json.obj ((k, pv) :: ps'))).length =
                1 + (serPair (k, pv)).length + (serObjTail ps').length := by
              simp [ser]; omega
            simp only [List.length_append] at hlen ⊢
            have := serObjTail_length_pos ps'
            omega
          have hlc : (serObjTail ps' ++ rest).length < fuel := by
            have := serPair_length_ge (k, pv)
            simp only [List.length_append] at hlp ⊢
            omega
          rw [h1, h2, parseVal_obj_cons (by decide) fuel, ← h2,
            ihD k pv _ hlp (restOkB_of_noDigitHead _ _ (noDigitHead_serObjTail _ _))]
          dsimp only
          rw [ihC ps' rest hlc]
    · -- one serialized object field parses back
      intro k v rest hlen hrok
      have h1 : serPair (k, v) ++ rest = 34 :: (escStr k ++ 34 :: (58 :: (ser v ++ rest))) := by
        simp [serPair, serStr]
      have hkey : (escStr k).length < fuel := by
        have hL : (serPair (k, v)).length = (escStr k).length + 3 + (ser v).length := by
          simp [serPair, serStr]; omega
        have := ser_length_pos v
        simp only [List.length_append] at hlen
        omega
      have hlv : (ser v ++ rest).length < fuel := by
        have hL : (serPair (k, v)).length = (escStr k).length + 3 + (ser v).length := by
          simp [serPair, serStr]; omega
        simp only [List.length_append] at hlen ⊢
        omega
      rw [h1, parsePair_str, parseStrBody_escStr k _ fuel hkey]
      dsimp only
      rw [if_pos rfl, ihA v rest hlv hrok]
    · -- a serialized array tail parses back
      intro xs rest hlen
      cases xs with
      | nil =>
        have h1 : serArrTail [] ++ rest = 93 :: rest := by simp [serArrTail]
        rw [h1, parseArrTail_close]
      | cons x xs' =>
        have h1 : serArrTail (x :: xs') ++ rest = 44 :: (ser x ++ (serArrTail xs' ++ rest)) := by
          simp [serArrTail]
        have hlx : (ser x ++ (serArrTail xs' ++ rest)).length < fuel := by
          have hL : (serArrTail (x :: xs')).length =
              1 + (ser x).length + (serArrTail xs').length := by simp [serArrTail]; omega
          simp only [List.length_append] at hlen ⊢
          omega
        have hlb : (serArrTail xs' ++ rest).length < fuel := by
          have := ser_length_pos x
          simp only [List.length_append] at hlx ⊢
          omega
        rw [h1, parseArrTail_comma,
          ihA x _ hlx (restOkB_of_noDigitHead _ _ (noDigitHead_serArrTail _ _))]
        dsimp only
        rw [ihB xs' rest hlb]
    · -- a serialized object tail parses back
      intro ps rest hlen
      cases ps with
      | nil =>
        have h1 : serObjTail [] ++ rest = 125 :: rest := by simp [serObjTail]
        rw [h1, parseObjTail_close]
      | cons p ps' =>
        obtain ⟨k, pv⟩ := p
        have h1 : serObjTail ((k, pv) :: ps') ++ rest =
            44 :: (serPair (k, pv) ++ (serObjTail ps' ++ rest)) := by
          simp [serObjTail]
        have hlp : (serPair (k, pv) ++ (serObjTail ps' ++ rest)).length ≤ fuel := by
          have hL : (serObjTail ((k, pv) :: ps')).length =
              1 + (serPair (k, pv)).length + (serObjTail ps').length := by
            simp [serObjTail]; omega
          simp only [List.length_append] at hlen ⊢
          omega
        have hlc : (serObjTail ps' ++ rest).length < fuel := by
          have := serPair_length_ge (k, pv)
          simp only [List.length_append] at hlp ⊢
          omega
        rw [h1, parseObjTail_comma,
          ihD k pv _ hlp (restOkB_of_noDigitHead _ _ (noDigitHead_serObjTail _ _))]
        dsimp only
        rw [ihC ps' rest hlc]

/-- Serializing any structured value and parsing the bytes back yields the
value again: the JSON body codec round-trips. -/
theorem jparse_ser (v : Json) : jparse (ser v) = some v := by
  have h := (parse_ser_all ((ser v).length + 1)).1 v [] (by simp)
    (restOkB_of_noDigitHead v [] rfl)
  rw [List.append_nil] at h
  unfold jparse
  rw [h]

theorem readLine_no10 : ∀ (l : List Nat), (∀ c ∈ l, c ≠ 10) → ∀ r,
    readLine (l ++ 10 :: r) = (l ++ [10], r) := by
  intro l
  induction l with
  | nil => intro _ r; rfl
  | cons c l' ih =>
    intro h r
    have hc : c ≠ 10 := h c (by simp)
    simp only [List.cons_append, readLine, if_neg hc, List.append_eq]
    rw [ih (fun x hx => h x (by simp [hx])) r]

theorem dropWhile_head_false {p : Nat → Bool} (xs : List Nat)
    (h : ∀ c, xs.head? = some c → p c = false) : xs.dropWhile p = xs := by
  cases xs with
  | nil => rfl
  | cons c r => simp [List.dropWhile_cons, h c rfl]

theorem trimEndCrLf_crlf (l : List Nat)
    (h : ∀ c, l.reverse.head? = some c → isCrLf c = false) :
    trimEndCrLf (l ++ [13, 10]) = l := by
  unfold trimEndCrLf
  have h1 : (l ++ [13, 10]).reverse = 10 :: 13 :: l.reverse := by simp
  rw [h1, List.dropWhile_cons_of_pos (by decide), List.dropWhile_cons_of_pos (by decide),
    dropWhile_head_false _ h, List.reverse_reverse]

theorem splitOnce_first : ∀ (a : List Nat), (∀ c ∈ a, c ≠ 58) → ∀ b,
    splitOnce 58 (a ++ 58 :: b) = some (a, b) := by
  intro a
  induction a with
  | nil => intro _ b; rfl
  | cons c a' ih =>
    intro h b
    have hc : c ≠ 58 := h c (by simp)
    simp only [List.cons_append, splitOnce, if_neg hc, List.append_eq]
    rw [ih (fun x hx => h x (by simp [hx])) b]

theorem trimStr_space_digits (nd : List Nat) (hne : nd ≠ [])
    (hd : ∀ c ∈ nd, isDigit c = true) : trimStr (32 :: nd) = nd := by
  have hnw : ∀ c ∈ nd, isWs c = false := by
    intro c hc
    have := hd c hc
    simp [isDigit] at this
    simp [isWs]
    omega
  have hhead : ∀ c, nd.head? = some c → isWs c = false := fun c hc =>
    hnw c (List.mem_of_mem_head? hc)
  have hrevhead : ∀ c, nd.reverse.head? = some c → isWs c = false := fun c hc =>
    hnw c (by simpa using List.mem_of_mem_head? hc)
  unfold trimStr
  rw [List.dropWhile_cons_of_pos (by decide), dropWhile_head_false nd hhead,
    dropWhile_head_false _ hrevhead, List.reverse_reverse]

theorem readLine_crlf (tail : List Nat) : readLine (13 :: 10 :: tail) = ([13, 10], tail) := rfl

theorem natDecimal_ne10 (n : Nat) : ∀ c ∈ natDecimal n, c ≠ 10 := by
  intro c hc
  have := natDecimal_digits n c hc
  simp [isDigit] at this
  omega

theorem natDecimal_rev_head_digit (n : Nat) :
    ∀ c, (natDecimal n).reverse.head? = some c → isDigit c = true := by
  intro c hc
  have hmem : c ∈ (natDecimal n).reverse := List.mem_of_mem_head? hc
  exact natDecimal_digits n c (by simpa using hmem)

/-- A complete Content-Length header block followed by a body parses into a
one-entry header map and leaves exactly the body. -/
theorem read_headers_frame (n : Nat) (tail : List Nat) (fuel : Nat) :
    read_headers (fuel + 2) [] (clHeaderPrefix ++ natDecimal n ++ [13, 10, 13, 10] ++ tail) =
      .ok (some ([(contentLengthKey, natDecimal n)], tail)) := by
  have hb : clHeaderPrefix ++ natDecimal n ++ [13, 10, 13, 10] ++ tail =
      (clHeaderPrefix ++ natDecimal n ++ [13]) ++ 10 :: (13 :: 10 :: tail) := by
    simp
  have hno10 : ∀ c ∈ clHeaderPrefix ++ natDecimal n ++ [13], c ≠ 10 := by
    intro c hc
    simp only [List.append_assoc, List.mem_append, List.mem_singleton] at hc
    rcases hc with hc | hc | hc
    · revert hc
      revert c
      decide
    · exact natDecimal_ne10 n c hc
    · omega
  have hline := readLine_no10 _ hno10 (13 :: 10 :: tail)
  rw [show fuel + 2 = (fuel + 1) + 1 from rfl]
  simp only [read_headers]
  rw [hb, hline]
  have hlne : (clHeaderPrefix ++ natDecimal n ++ [13]) ++ [10] ≠ [] := by simp
  rw [if_neg hlne]
  have htrim : trimEndCrLf ((clHeaderPrefix ++ natDecimal n ++ [13]) ++ [10]) =
      clHeaderPrefix ++ natDecimal n := by
    have he : (clHeaderPrefix ++ natDecimal n ++ [13]) ++ [10] =
        (clHeaderPrefix ++ natDecimal n) ++ [13, 10] := by simp
    rw [he]
    apply trimEndCrLf_crlf
    intro c hc
    rw [List.reverse_append,
      List.head?_append_of_ne_nil _ (by simp [natDecimal_ne_nil n])] at hc
    have hdig := natDecimal_rev_head_digit n c hc
    simp only [isDigit, decide_eq_true_eq] at hdig
    simp only [isCrLf, decide_eq_false_iff_not]
    omega
  rw [htrim]
  have hempty : (clHeaderPrefix ++ natDecimal n).isEmpty = false := by
    simp [clHeaderPrefix]
  rw [if_neg (by simp [clHeaderPrefix])]
  have hsplit : splitOnce 58 (clHeaderPrefix ++ natDecimal n) =
      some ([67, 111, 110, 116, 101, 110, 116, 45, 76, 101, 110, 103, 116, 104],
        32 :: natDecimal n) := by
    have he : clHeaderPrefix ++ natDecimal n =
        [67, 111, 110, 116, 101, 110, 116, 45, 76, 101, 110, 103, 116, 104] ++
          58 :: (32 :: natDecimal n) := by
      simp [clHeaderPrefix]
    rw [he]
    apply splitOnce_first
    · decide
  rw [hsplit]
  have hkey : toLowerStr (trimStr
      [67, 111, 110, 116, 101, 110, 116, 45, 76, 101, 110, 103, 116, 104]) =
      contentLengthKey := by decide
  have hval : trimStr (32 :: natDecimal n) = natDecimal n :=
    trimStr_space_digits _ (natDecimal_ne_nil n) (natDecimal_digits n)
  simp only [headersInsert, hkey, hval]
  simp only [read_headers, readLine_crlf]
  rw [if_neg (by simp : ([13, 10] : List Nat) ≠ [])]
  rw [if_pos (by decide : (trimEndCrLf [13, 10]).isEmpty = true)]
  rw [if_neg (by simp : ([(contentLengthKey, natDecimal n)] :
    List (List Nat × List Nat)).isEmpty ≠ true)]

/-- A Content-Length header line followed by end-of-stream (no blank-line
terminator) is the fatal header-framing error. -/
theorem read_headers_eof_mid (n : Nat) (fuel : Nat) :
    read_headers (fuel + 2) [] (clHeaderPrefix ++ natDecimal n ++ [13, 10]) =
      .error .unexpectedEofHeaders := by
  have hb : clHeaderPrefix ++ natDecimal n ++ [13, 10] =
      (clHeaderPrefix ++ natDecimal n ++ [13]) ++ 10 :: [] := by
    simp
  have hno10 : ∀ c ∈ clHeaderPrefix ++ natDecimal n ++ [13], c ≠ 10 := by
    intro c hc
    simp only [List.append_assoc, List.mem_append, List.mem_singleton] at hc
    rcases hc with hc | hc | hc
    · revert hc
      revert c
      decide
    · exact natDecimal_ne10 n c hc
    · omega
  have hline := readLine_no10 _ hno10 []
  rw [show fuel + 2 = (fuel + 1) + 1 from rfl]
  simp only [read_headers]
  rw [hb, hline]
  rw [if_neg (by simp : (clHeaderPrefix ++ natDecimal n ++ [13]) ++ [10] ≠ [])]
  have htrim : trimEndCrLf ((clHeaderPrefix ++ natDecimal n ++ [13]) ++ [10]) =
      clHeaderPrefix ++ natDecimal n := by
    have he : (clHeaderPrefix ++ natDecimal n ++ [13]) ++ [10] =
        (clHeaderPrefix ++ natDecimal n) ++ [13, 10] := by simp
    rw [he]
    apply trimEndCrLf_crlf
    intro c hc
    rw [List.reverse_append,
      List.head?_append_of_ne_nil _ (by simp [natDecimal_ne_nil n])] at hc
    have hdig := natDecimal_rev_head_digit n c hc
    simp only [isDigit, decide_eq_true_eq] at hdig
    simp only [isCrLf, decide_eq_false_iff_not]
    omega
  rw [htrim]
  rw [if_neg (by simp [clHeaderPrefix])]
  have hsplit : splitOnce 58 (clHeaderPrefix ++ natDecimal n) =
      some ([67, 111, 110, 116, 101, 110, 116, 45, 76, 101, 110, 103, 116, 104],
        32 :: natDecimal n) := by
    have he : clHeaderPrefix ++ natDecimal n =
        [67, 111, 110, 116, 101, 110, 116, 45, 76, 101, 110, 103, 116, 104] ++
          58 :: (32 :: natDecimal n) := by
      simp [clHeaderPrefix]
    rw [he]
    apply splitOnce_first
    · decide
  rw [hsplit]
  simp only [read_headers, readLine]
  rfl

theorem parseUsize_natDecimal (n : Nat) : parseUsize (natDecimal n) = some n := by
  unfold parseUsize
  rw [if_pos ⟨natDecimal_ne_nil n, by
    rw [List.all_eq_true]
    exact natDecimal_digits n⟩]
  rw [digitsVal_natDecimal]

/-- Claim C7: for every structured value V, writing V with
`FramedTransport::write` and reading the resulting byte stream back with
`FramedTransport::read` reproduces V exactly. -/
theorem transport_read_write (v : Json) : read (write v) = .ok (some v) := by
  have hpos : 0 < (write v).length := by simp [write, clHeaderPrefix]
  have h2 : (write v).length + 1 = ((write v).length - 1) + 2 := by omega
  unfold read
  rw [h2]
  rw [show write v = clHeaderPrefix ++ natDecimal (ser v).length ++ [13, 10, 13, 10] ++ ser v
    from rfl]
  rw [read_headers_frame]
  dsimp only
  rw [show headersGet [(contentLengthKey, natDecimal (ser v).length)] contentLengthKey =
    some (natDecimal (ser v).length) from by simp [headersGet]]
  dsimp only
  rw [parseUsize_natDecimal]
  dsimp only
  rw [if_pos (le_refl (ser v).length), List.take_length, jparse_ser]

/-- Claim C8: `read` yields the explicit "no message" outcome (not an
error) at end-of-stream before any header line (also after only blank
lines); end-of-stream after a header line but before the blank terminator
is a fatal framing error; a declared body length longer than the remaining
stream is a fatal framing error; a header block without content-length is
a fatal error. -/
theorem transport_read_eof_behavior :
    (read [] = .ok none) ∧
    (read [13, 10] = .ok none) ∧
    (∀ n : Nat, read (clHeaderPrefix ++ natDecimal n ++ [13, 10]) =
      .error .unexpectedEofHeaders) ∧
    (∀ (n : Nat) (body : List Nat), body.length < n →
      read (clHeaderPrefix ++ natDecimal n ++ [13, 10, 13, 10] ++ body) =
        .error .shortBody) ∧
    (read [88, 45, 70, 111, 111, 58, 32, 98, 97, 114, 13, 10, 13, 10] =
      .error .missingContentLength) := by
  refine ⟨rfl, rfl, ?_, ?_, rfl⟩
  · intro n
    have hpos : 0 < (clHeaderPrefix ++ natDecimal n ++ [13, 10]).length := by
      simp [clHeaderPrefix]
    have h2 : (clHeaderPrefix ++ natDecimal n ++ [13, 10]).length + 1 =
        ((clHeaderPrefix ++ natDecimal n ++ [13, 10]).length - 1) + 2 := by omega
    unfold read
    rw [h2, read_headers_eof_mid]
  · intro n body h
    have hpos : 0 < (clHeaderPrefix ++ natDecimal n ++ [13, 10, 13, 10] ++ body).length := by
      simp [clHeaderPrefix]
    have h2 : (clHeaderPrefix ++ natDecimal n ++ [13, 10, 13, 10] ++ body).length + 1 =
        ((clHeaderPrefix ++ natDecimal n ++ [13, 10, 13, 10] ++ body).length - 1) + 2 := by
      omega
    unfold read
    rw [h2, read_headers_frame]
    dsimp only
    rw [show headersGet [(contentLengthKey, natDecimal n)] contentLengthKey =
      some (natDecimal n) from by simp [headersGet]]
    dsimp only
    rw [parseUsize_natDecimal]
    dsimp only
    rw [if_neg (by omega : ¬ n ≤ body.length)]

/-- Concrete instance of claim C8's truncated-body case: a frame declaring
five body bytes over a stream holding only two fails with the body-framing
error. -/
theorem transport_read_eof_behavior_witness :
    read (clHeaderPrefix ++ natDecimal 5 ++ [13, 10, 13, 10] ++ [97, 98]) =
      .error .shortBody :=
  transport_read_eof_behavior.2.2.2.1 5 [97, 98] (by decide)

theorem requestLoop_skip (method : List Nat) (id : Int) :
    ∀ (pre : List (Nat × ReadEvent)),
      (∀ p ∈ pre, p.1 < REQUEST_TIMEOUT_MS ∧ discardedB id p.2 = true) →
      ∀ rest t, requestLoop method id (pre ++ rest) t =
        requestLoop method id rest (t + delaysSum pre) := by
  intro pre
  induction pre with
  | nil =>
    intro _ rest t
    simp [delaysSum]
  | cons p pre' ih =>
    intro h rest t
    obtain ⟨d, ev⟩ := p
    obtain ⟨hd, hdisc⟩ := h (d, ev) (by simp)
    have hskip : ∀ q ∈ pre', q.1 < REQUEST_TIMEOUT_MS ∧ discardedB id q.2 = true :=
      fun q hq => h q (by simp [hq])
    have hsum : t + delaysSum ((d, ev) :: pre') = (t + d) + delaysSum pre' := by
      simp [delaysSum]
      omega
    rw [hsum]
    cases ev with
    | eof => simp [discardedB] at hdisc
    | fail e => simp [discardedB] at hdisc
    | frame j =>
      cases j with
      | obj fields =>
        cases hid : lookupField fields idKey with
        | none =>
          simp only [List.cons_append, requestLoop, if_neg (by omega : ¬ REQUEST_TIMEOUT_MS ≤ d),
            hid]
          exact ih hskip rest (t + d)
        | some rid =>
          have hm : matches_id rid id = false := by
            simpa [discardedB, hid] using hdisc
          simp only [List.cons_append, requestLoop, if_neg (by omega : ¬ REQUEST_TIMEOUT_MS ≤ d),
            hid, hm]
          simp only [Bool.false_eq_true, if_false]
          exact ih hskip rest (t + d)
      | null =>
        simp only [List.cons_append, requestLoop, if_neg (by omega : ¬ REQUEST_TIMEOUT_MS ≤ d)]
        exact ih hskip rest (t + d)
      | bool b =>
        simp only [List.cons_append, requestLoop, if_neg (by omega : ¬ REQUEST_TIMEOUT_MS ≤ d)]
        exact ih hskip rest (t + d)
      | num i =>
        simp only [List.cons_append, requestLoop, if_neg (by omega : ¬ REQUEST_TIMEOUT_MS ≤ d)]
        exact ih hskip rest (t + d)
      | str sstr =>
        simp only [List.cons_append, requestLoop, if_neg (by omega : ¬ REQUEST_TIMEOUT_MS ≤ d)]
        exact ih hskip rest (t + d)
      | arr xs =>
        simp only [List.cons_append, requestLoop, if_neg (by omega : ¬ REQUEST_TIMEOUT_MS ≤ d)]
        exact ih hskip rest (t + d)

theorem requestLoop_elapsed_le (method : List Nat) (id : Int) :
    ∀ (events : List (Nat × ReadEvent)) (t : Nat),
      (requestLoop method id events t).1 ≤ t + delaysSum events + REQUEST_TIMEOUT_MS := by
  intro events
  induction events with
  | nil => intro t; simp [requestLoop, delaysSum]
  | cons p rest ih =>
    intro t
    obtain ⟨d, ev⟩ := p
    have hsum : delaysSum ((d, ev) :: rest) = d + delaysSum rest := by
      simp [delaysSum]
    by_cases hto : REQUEST_TIMEOUT_MS ≤ d
    · simp only [requestLoop, if_pos hto, hsum]
      omega
    · have hrec := ih (t + d)
      simp only [requestLoop, if_neg hto, hsum]
      cases ev with
      | eof => dsimp only; omega
      | fail e => dsimp only; omega
      | frame j =>
        cases j with
        | obj fields =>
          dsimp only
          cases hid : lookupField fields idKey with
          | none =>
            simp only [hid]
            omega
          | some rid =>
            simp only [hid]
            by_cases hm : matches_id rid id = true
            · rw [if_pos hm]
              cases hres : lookupField fields resultKey with
              | some result => simp only [hres]; omega
              | none =>
                simp only [hres]
                cases herr : lookupField fields errorKey with
                | some err => simp only [herr]; omega
                | none => simp only [herr]; omega
            · rw [if_neg hm]
              omega
        | null => dsimp only; omega
        | bool b => dsimp only; omega
        | num i => dsimp only; omega
        | str sstr => dsimp only; omega
        | arr xs => dsimp only; omega

/-- Claim C1 as stated is false: the 15-second timeout is re-armed on
every `transport.read()`, so the read loop is not bounded by 15 seconds
from the call's start.  Concretely, a single discarded notification
arriving after 10 seconds followed by silence makes the call spend 25
seconds before its timeout error. -/
theorem request_timeout_not_from_start :
    ¬ (∀ (method : List Nat) (id : Int) (events : List (Nat × ReadEvent)),
        (requestLoop method id events 0).1 ≤ REQUEST_TIMEOUT_MS) := by
  intro h
  have hc := h [] 1 [(10000, .frame (.obj []))]
  have heval : requestLoop [] 1 [(10000, .frame (.obj []))] 0 =
      (25000, .timeoutErr []) := rfl
  rw [heval] at hc
  simp [REQUEST_TIMEOUT_MS] at hc

/-- Claim C1, amended: each single wait for the next frame is bounded by
the fixed 15-second timeout (so the whole call is bounded by the sum of
the inter-frame delays plus 15 s), and when every arriving frame is
discarded within the window and the server then stays silent, the call
fails with the timeout error naming the method, exactly 15 s after the
last frame. -/
theorem request_timeout_per_read (method : List Nat) (id : Int) :
    (∀ (events : List (Nat × ReadEvent)) (t : Nat),
      (requestLoop method id events t).1 ≤ t + delaysSum events + REQUEST_TIMEOUT_MS) ∧
    (∀ pre : List (Nat × ReadEvent),
      (∀ p ∈ pre, p.1 < REQUEST_TIMEOUT_MS ∧ discardedB id p.2 = true) →
      requestLoop method id pre 0 =
        (delaysSum pre + REQUEST_TIMEOUT_MS, .timeoutErr method)) := by
  refine ⟨requestLoop_elapsed_le method id, ?_⟩
  intro pre hpre
  have h := requestLoop_skip method id pre hpre [] 0
  rw [List.append_nil] at h
  rw [h]
  simp [requestLoop]

/-- Instance of the amended claim C1: one discarded notification after
10 s, then silence — the call times out at 25 s naming the method. -/
theorem request_timeout_per_read_witness :
    requestLoop [109] 1 [(10000, .frame (.obj []))] 0 =
      (delaysSum [((10000 : Nat), ReadEvent.frame (.obj []))] + REQUEST_TIMEOUT_MS,
        .timeoutErr [109]) :=
  (request_timeout_per_read [109] 1).2 [(10000, .frame (.obj []))]
    (by
      intro p hp
      simp only [List.mem_singleton] at hp
      subst hp
      exact ⟨by decide, by decide⟩)

/-- Claim C3: frames without an id are discarded as notifications; frames
with a non-matching id are discarded; the first frame with the matching id
resolves the call — with its result field on success, with a remote error
carrying the server's payload when only an error field is present, and
with the fatal invalid-response error when neither is present.  In
particular the concrete stream [notification, stale-id response, correct
response] returns exactly the correct response's result. -/
theorem request_response_filtering :
    (∀ (method : List Nat) (id : Int) (pre : List (Nat × ReadEvent)) (d : Nat)
        (fields : List (List Nat × Json)) (rid v : Json)
        (rest : List (Nat × ReadEvent)) (t : Nat),
      (∀ p ∈ pre, p.1 < REQUEST_TIMEOUT_MS ∧ discardedB id p.2 = true) →
      d < REQUEST_TIMEOUT_MS →
      lookupField fields idKey = some rid →
      matches_id rid id = true →
      lookupField fields resultKey = some v →
      requestLoop method id (pre ++ (d, .frame (.obj fields)) :: rest) t =
        (t + delaysSum pre + d, .ok v)) ∧
    (∀ (method : List Nat) (id : Int) (pre : List (Nat × ReadEvent)) (d : Nat)
        (fields : List (List Nat × Json)) (rid err : Json)
        (rest : List (Nat × ReadEvent)) (t : Nat),
      (∀ p ∈ pre, p.1 < REQUEST_TIMEOUT_MS ∧ discardedB id p.2 = true) →
      d < REQUEST_TIMEOUT_MS →
      lookupField fields idKey = some rid →
      matches_id rid id = true →
      lookupField fields resultKey = none →
      lookupField fields errorKey = some err →
      requestLoop method id (pre ++ (d, .frame (.obj fields)) :: rest) t =
        (t + delaysSum pre + d, .remoteErr method err)) ∧
    (∀ (method : List Nat) (id : Int) (pre : List (Nat × ReadEvent)) (d : Nat)
        (fields : List (List Nat × Json)) (rid : Json)
        (rest : List (Nat × ReadEvent)) (t : Nat),
      (∀ p ∈ pre, p.1 < REQUEST_TIMEOUT_MS ∧ discardedB id p.2 = true) →
      d < REQUEST_TIMEOUT_MS →
      lookupField fields idKey = some rid →
      matches_id rid id = true →
      lookupField fields resultKey = none →
      lookupField fields errorKey = none →
      requestLoop method id (pre ++ (d, .frame (.obj fields)) :: rest) t =
        (t + delaysSum pre + d, .invalidResponse method)) ∧
    (∀ method : List Nat,
      requestLoop method 2
        [(0, .frame (.obj [([109], .str [110])])),
         (0, .frame (.obj [(idKey, .num 1), (resultKey, .null)])),
         (0, .frame (.obj [(idKey, .num 2), (resultKey, .str [111, 107])]))] 0 =
        (0, .ok (.str [111, 107]))) := by
  refine ⟨?_, ?_, ?_, fun method => rfl⟩
  · intro method id pre d fields rid v rest t hpre hd hrid hm hres
    rw [requestLoop_skip method id pre hpre]
    simp only [requestLoop, if_neg (by omega : ¬ REQUEST_TIMEOUT_MS ≤ d), hrid, hm, if_true,
      hres]
  · intro method id pre d fields rid err rest t hpre hd hrid hm hres herr
    rw [requestLoop_skip method id pre hpre]
    simp only [requestLoop, if_neg (by omega : ¬ REQUEST_TIMEOUT_MS ≤ d), hrid, hm, if_true,
      hres, herr]
  · intro method id pre d fields rid rest t hpre hd hrid hm hres herr
    rw [requestLoop_skip method id pre hpre]
    simp only [requestLoop, if_neg (by omega : ¬ REQUEST_TIMEOUT_MS ≤ d), hrid, hm, if_true,
      hres, herr]

/-- Instance of claim C3: after one discarded notification, a matching
response frame with a result resolves the call with that result. -/
theorem request_response_filtering_witness :
    requestLoop [109] 2
      ([(0, .frame (.obj [([109], .str [110])]))] ++
        (0, .frame (.obj [(idKey, .num 2), (resultKey, .str [111, 107])])) :: []) 0 =
      (0 + delaysSum [((0 : Nat), ReadEvent.frame (.obj [([109], .str [110])]))] + 0,
        .ok (.str [111, 107])) :=
  request_response_filtering.1 [109] 2 _ 0 _ (.num 2) (.str [111, 107]) [] 0
    (by
      intro p hp
      simp only [List.mem_singleton] at hp
      subst hp
      exact ⟨by decide, by decide⟩)
    (by decide) rfl rfl rfl

theorem issuedIds_general :
    ∀ (traces : List (List (Nat × ReadEvent))) (m : Int),
      issuedIds ⟨m⟩ traces =
        (List.range traces.length).map (fun k : Nat => m + (k : Int)) := by
  intro traces
  induction traces with
  | nil => intro m; rfl
  | cons e r ih =>
    intro m
    simp only [issuedIds, request]
    rw [ih (m + 1)]
    simp only [List.length_cons, List.range_succ_eq_map, List.map_cons, List.map_map]
    refine List.cons_eq_cons.mpr ⟨by omega, ?_⟩
    apply List.map_congr_left
    intro a _
    simp only [Function.comp_apply]
    push_cast
    ring

/-- Claim C9: within one session the ids of N sequential requests are
exactly 1, 2, ..., N in order with no repeats — whatever each request's
outcome — the counter starts at 1 and advances by one on every request. -/
theorem ids_sequential :
    (∀ traces : List (List (Nat × ReadEvent)),
      issuedIds newBridgeState traces =
        (List.range traces.length).map (fun k : Nat => 1 + (k : Int))) ∧
    (∀ traces : List (List (Nat × ReadEvent)),
      (issuedIds newBridgeState traces).Nodup) ∧
    (∀ (st : BridgeState) (method : List Nat) (events : List (Nat × ReadEvent)),
      ((request st method events).2).next_request_id = st.next_request_id + 1) ∧
    newBridgeState.next_request_id = 1 := by
  refine ⟨fun traces => issuedIds_general traces 1, ?_, fun _ _ _ => rfl, rfl⟩
  intro traces
  rw [show newBridgeState = (⟨1⟩ : BridgeState) from rfl, issuedIds_general traces 1]
  apply List.Nodup.map
  · intro a b hab
    simpa using hab
  · exact List.nodup_range _

/-- Claim C2: every path through the shutdown state machine ends with the
process terminated — either its natural exit was observed or it was
force-killed — whatever the outcomes of the shutdown request, the exit
notification, and the exit wait. -/
theorem shutdown_terminates_process (env : ShutdownEnv) :
    .observedExit ∈ shutdown env ∨ .killed ∈ shutdown env := by
  obtain ⟨reply, notifyOk, wait⟩ := env
  cases reply <;> cases wait <;> simp [shutdown, reqFailed]

/-- Claim C6: `ensure_open` sends a version-1 open announcement for an
untracked uri; sends nothing when the stored timestamp is not strictly
older than the file's mtime; sends a change announcement with version
incremented and the new full text when it is strictly older.  Hence two
consecutive calls on an unmodified file announce exactly once, and a call
after a modification announces version 2 with the new text. -/
theorem ensure_open_cases :
    (∀ opened uri languageId modified text, docLookup opened uri = none →
      ensure_open opened uri languageId modified text =
        ([.didOpen uri languageId 1 text], docInsert opened uri ⟨1, modified⟩)) ∧
    (∀ opened uri languageId modified text st, docLookup opened uri = some st →
      modified ≤ st.mtime →
      ensure_open opened uri languageId modified text = ([], opened)) ∧
    (∀ opened uri languageId modified text st, docLookup opened uri = some st →
      st.mtime < modified →
      ensure_open opened uri languageId modified text =
        ([.didChange uri (st.version + 1) text],
          docInsert opened uri ⟨st.version + 1, modified⟩)) ∧
    (∀ uri languageId modified text,
      (ensure_open [] uri languageId modified text).1 =
        [.didOpen uri languageId 1 text] ∧
      ensure_open (ensure_open [] uri languageId modified text).2 uri languageId
          modified text =
        ([], (ensure_open [] uri languageId modified text).2)) ∧
    (∀ uri languageId m m2 text text2, m < m2 →
      (ensure_open (ensure_open [] uri languageId m text).2 uri languageId m2 text2).1 =
        [.didChange uri 2 text2]) := by
  have hopen : ∀ opened uri languageId modified text, docLookup opened uri = none →
      ensure_open opened uri languageId modified text =
        ([.didOpen uri languageId 1 text], docInsert opened uri ⟨1, modified⟩) := by
    intro opened uri languageId modified text h
    simp only [ensure_open, h]
  have hskip : ∀ opened uri languageId modified text st, docLookup opened uri = some st →
      modified ≤ st.mtime →
      ensure_open opened uri languageId modified text = ([], opened) := by
    intro opened uri languageId modified text st h hle
    simp only [ensure_open, h]
    rw [if_pos (by simp [is_newer]; omega)]
  have hchange : ∀ opened uri languageId modified text st, docLookup opened uri = some st →
      st.mtime < modified →
      ensure_open opened uri languageId modified text =
        ([.didChange uri (st.version + 1) text],
          docInsert opened uri ⟨st.version + 1, modified⟩) := by
    intro opened uri languageId modified text st h hlt
    simp only [ensure_open, h]
    rw [if_neg (by simp [is_newer]; omega)]
  refine ⟨hopen, hskip, hchange, ?_, ?_⟩
  · intro uri languageId modified text
    have h1 := hopen [] uri languageId modified text rfl
    refine ⟨by rw [h1], ?_⟩
    have hlook : docLookup (ensure_open [] uri languageId modified text).2 uri =
        some ⟨1, modified⟩ := by
      rw [h1]
      simp [docInsert, docLookup]
    exact hskip _ uri languageId modified text _ hlook (le_refl modified)
  · intro uri languageId m m2 text text2 hlt
    have h1 := hopen [] uri languageId m text rfl
    have hlook : docLookup (ensure_open [] uri languageId m text).2 uri =
        some ⟨1, m⟩ := by
      rw [h1]
      simp [docInsert, docLookup]
    rw [hchange _ uri languageId m2 text2 _ hlook hlt]
    norm_num

/-- Instance of claim C6: open then re-access an unmodified file — the
first call announces `didOpen` version 1, the second announces nothing. -/
theorem ensure_open_cases_witness :
    (ensure_open [] [97] [114] 100 [120]).1 = [.didOpen [97] [114] 1 [120]] ∧
    ensure_open (ensure_open [] [97] [114] 100 [120]).2 [97] [114] 100 [120] =
      ([], (ensure_open [] [97] [114] 100 [120]).2) :=
  ensure_open_cases.2.2.2.1 [97] [114] 100 [120]

theorem sentCount_cons_sent (a : Nat) (steps : List ToolStep) :
    sentCount (.sentRequest a :: steps) = sentCount steps + 1 := by
  simp [sentCount, List.filter_cons]

theorem sentCount_cons_slept (ms : Nat) (steps : List ToolStep) :
    sentCount (.slept ms :: steps) = sentCount steps := by
  simp [sentCount, List.filter_cons]

theorem sentCount_le (replies : Nat → Except DefErr Json) :
    ∀ (r attempt : Nat), sentCount (executeAttempts replies attempt r).1 ≤ r := by
  intro r
  induction r with
  | zero => intro attempt; simp [executeAttempts, sentCount]
  | succ r ih =>
    intro attempt
    simp only [executeAttempts]
    cases hr : replies attempt with
    | error e => simp [sentCount_cons_sent, sentCount]
    | ok raw =>
      dsimp only
      cases hn : normalize_targets raw with
      | error e =>
        simp [sentCount_cons_sent, sentCount]
      | ok targets =>
        dsimp only
        by_cases hemp : targets.isEmpty
        · rw [if_pos hemp]
          by_cases hrem : r = 0
          · rw [if_pos hrem]
            simp [sentCount_cons_sent, sentCount]
          · rw [if_neg hrem]
            have hrec := ih (attempt + 1)
            rw [sentCount_cons_sent, sentCount_cons_slept]
            omega
        · rw [if_neg hemp]
          simp [sentCount_cons_sent, sentCount]

/-- Claim C4: `execute` makes at most 3 attempts; an empty normalized
reply with attempts remaining sleeps the fixed 150 ms delay and retries; a
non-empty reply returns immediately; after the final attempt an empty
result is returned as a success, never an error.  In particular [empty,
empty, non-empty] yields the non-empty result on the third attempt, and
three empties yield the empty success. -/
theorem execute_retry_policy :
    (∀ replies, sentCount (execute replies).1 ≤ MAX_RETRIES) ∧
    (execute (fun a => if a = 3 then .ok (.arr [sampleLoc]) else .ok .null) =
      ([.sentRequest 1, .slept RETRY_DELAY_MS, .sentRequest 2, .slept RETRY_DELAY_MS,
        .sentRequest 3], .ok [sampleTarget])) ∧
    (execute (fun _ => .ok .null) =
      ([.sentRequest 1, .slept RETRY_DELAY_MS, .sentRequest 2, .slept RETRY_DELAY_MS,
        .sentRequest 3], .ok [])) :=
  ⟨fun replies => sentCount_le replies MAX_RETRIES 1, rfl, rfl⟩

/-- Claim C5: `normalize_targets` maps null to the empty list, a list
element-wise, and a single object to a one-element list, and fails with
the unexpected-format error on any other shape; an element that is not an
object, or an object with neither `uri` nor `targetUri`, is a fatal
error, as is a missing or non-unsigned-integer range coordinate.  A
single location, the one-element list containing it, and the equivalent
location-link all normalize to the same single-element target list. -/
theorem normalize_targets_shapes :
    (normalize_targets .null = .ok []) ∧
    (∀ fields, normalize_targets (.obj fields) =
      (convert_location (.obj fields)).map (fun t => [t])) ∧
    (∀ entries, normalize_targets (.arr entries) = entries.mapM convert_location) ∧
    (∀ b, normalize_targets (.bool b) = .error .unexpectedFormat) ∧
    (∀ i, normalize_targets (.num i) = .error .unexpectedFormat) ∧
    (∀ s, normalize_targets (.str s) = .error .unexpectedFormat) ∧
    (∀ i, convert_location (.num i) = .error .entryNotObject) ∧
    (∀ fields, containsKey fields uriKey = false →
      containsKey fields targetUriKey = false →
      convert_location (.obj fields) = .error .missingUriFields) ∧
    (∀ lbl, get_coord (.obj []) lineKey lbl = .error (.coordNotUint lbl lineKey)) ∧
    (∀ s lbl, get_coord (.obj [(lineKey, .str s)]) lineKey lbl =
      .error (.coordNotUint lbl lineKey)) ∧
    (∀ lbl, get_coord (.obj [(lineKey, .num (-1))]) lineKey lbl =
      .error (.coordNotUint lbl lineKey)) ∧
    (parse_range (.obj [(startKey, .obj [(lineKey, .num 1)]),
        (endKey, .obj [(lineKey, .num 1), (characterKey, .num 3)])]) =
      .error (.coordNotUint startKey characterKey)) ∧
    (normalize_targets sampleLoc = .ok [sampleTarget] ∧
      normalize_targets (.arr [sampleLoc]) = .ok [sampleTarget] ∧
      normalize_targets sampleLink = .ok [sampleTarget]) := by
  refine ⟨rfl, fun fields => rfl, fun entries => rfl, fun b => rfl, fun i => rfl,
    fun s => rfl, fun i => rfl, ?_, fun lbl => rfl, fun s lbl => rfl, fun lbl => rfl,
    rfl, rfl, rfl, rfl⟩
  intro fields h1 h2
  simp [convert_location, h1, h2]

/-- Instance of claim C5: an entry with neither `uri` nor `targetUri` is
the fatal missing-fields error. -/
theorem normalize_targets_shapes_witness :
    convert_location (.obj [([120], .null)]) = .error .missingUriFields :=
  normalize_targets_shapes.2.2.2.2.2.2.2.1 [([120], .null)] (by decide) (by decide)

/-- Claim C10: a range coordinate whose JSON value is an unsigned integer
above u32::MAX is not rejected: `get_coord` accepts any u64 value and
silently truncates it modulo 2^32 (the `as u32` cast), so oversized
coordinates pass normalization with a wrapped value rather than raising
the fatal error that malformed fields raise. -/
theorem get_coord_truncates :
    (∀ i : Int, 0 ≤ i → 2 ^ 32 ≤ i → i < 2 ^ 64 → ∀ lbl,
      get_coord (.obj [(lineKey, .num i)]) lineKey lbl = .ok (i.toNat % 2 ^ 32)) ∧
    (normalize_targets (.obj [(uriKey, .str sampleUri), (rangeKey, bigRange)]) =
      .ok [⟨sampleUri, ⟨5, 0, 5, 3⟩⟩]) := by
  constructor
  · intro i h0 h32 h64 lbl
    have hlook : lookupField [(lineKey, Json.num i)] lineKey = some (Json.num i) := by
      simp [lookupField]
    have hu : asU64 (Json.num i) = some i.toNat := by
      simp only [asU64]
      rw [if_pos ⟨h0, h64⟩]
    unfold get_coord
    dsimp only
    rw [hlook]
    dsimp only
    rw [hu]
  · rfl

/-- Instance of claim C10: the line value `2^32 + 5` is accepted and
truncates to 5 instead of failing. -/
theorem get_coord_truncates_witness :
    get_coord (.obj [(lineKey, .num (4294967301 : Int))]) lineKey startKey =
      .ok ((4294967301 : Int).toNat % 2 ^ 32) :=
  get_coord_truncates.1 4294967301 (by norm_num) (by norm_num) (by norm_num) startKey

end Pathfinder
